import Mathlib

/-!
Shallow embedding of the dao-terra governance contracts.

The fungible governance engine lives in dao-gov/src/execute.rs and
dao-gov/src/contract.rs; the membership token gateway lives in
dao-cw721/src/execute.rs.  Addresses are modelled as strings with
canonicalize/humanize as the identity.  Uint128 and u64 values are
modelled as natural numbers; operations the Rust code performs with
checked_sub followed by the question-mark operator become errors, while
plain arithmetic that can panic at runtime (division by zero, underflow
of a bare subtraction under overflow checks) is modelled by an explicit
panic outcome.  cosmwasm Decimal values are modelled by their atomics
(the numerator over 10 ^ 18), and Decimal.from_ratio n d by
n * 10 ^ 18 / d with a panic on a zero denominator, exactly as the
cosmwasm implementation behaves.
-/

/-- Association list lookup: the persistent maps of the contract
(polls, poll voters, bank) are modelled as association lists. -/
def alLookup {κ α : Type} [DecidableEq κ] (l : List (κ × α)) (k : κ) : Option α :=
  match l with
  | [] => none
  | (k', v) :: rest => if k = k' then some v else alLookup rest k

/-- Insert or replace the binding of a key. -/
def alInsert {κ α : Type} [DecidableEq κ] (l : List (κ × α)) (k : κ) (v : α) :
    List (κ × α) :=
  match l with
  | [] => [(k, v)]
  | (k', v') :: rest =>
    if k = k' then (k, v) :: rest else (k', v') :: alInsert rest k v

/-- Remove every binding of a key (storage remove). -/
def alRemove {κ α : Type} [DecidableEq κ] (l : List (κ × α)) (k : κ) :
    List (κ × α) :=
  match l with
  | [] => []
  | (k', v') :: rest =>
    if k' = k then alRemove rest k else (k', v') :: alRemove rest k

theorem alLookup_insert_self {κ α : Type} [DecidableEq κ]
    (l : List (κ × α)) (k : κ) (v : α) : alLookup (alInsert l k v) k = some v := by
  induction l with
  | nil => simp [alInsert, alLookup]
  | cons e rest ih =>
    obtain ⟨k', v'⟩ := e
    by_cases h : k = k' <;> simp [alInsert, alLookup, h, ih]

theorem alLookup_insert_ne {κ α : Type} [DecidableEq κ]
    (l : List (κ × α)) (k k' : κ) (v : α) (h : k' ≠ k) :
    alLookup (alInsert l k v) k' = alLookup l k' := by
  induction l with
  | nil => simp [alInsert, alLookup, h]
  | cons e rest ih =>
    obtain ⟨k0, v0⟩ := e
    by_cases hk : k = k0
    · subst hk
      simp [alInsert, alLookup, h]
    · by_cases hk' : k' = k0 <;> simp [alInsert, alLookup, hk, hk', ih]

theorem alLookup_remove_self {κ α : Type} [DecidableEq κ]
    (l : List (κ × α)) (k : κ) : alLookup (alRemove l k) k = none := by
  induction l with
  | nil => simp [alRemove, alLookup]
  | cons e rest ih =>
    obtain ⟨k0, v0⟩ := e
    by_cases h : k0 = k
    · simpa [alRemove, h] using ih
    · have h' : ¬k = k0 := fun hh => h hh.symm
      simp [alRemove, h, alLookup, h', ih]

theorem alLookup_remove_ne {κ α : Type} [DecidableEq κ]
    (l : List (κ × α)) (k k' : κ) (h : k' ≠ k) :
    alLookup (alRemove l k) k' = alLookup l k' := by
  induction l with
  | nil => simp [alRemove, alLookup]
  | cons e rest ih =>
    obtain ⟨k0, v0⟩ := e
    by_cases hk : k0 = k
    · subst hk
      simp [alRemove, alLookup, h, ih]
    · by_cases hk' : k' = k0 <;> simp [alRemove, alLookup, hk, hk', ih]

/-- Contract errors of dao-gov (error.rs is referenced throughout
execute.rs; the Std case stands for any propagated StdError such as a
failed checked_sub or a missing storage entry). -/
inductive ContractError : Type where
  | Std : ContractError
  | Unauthorized : ContractError
  | PollNotFound : ContractError
  | PollNotInProgress : ContractError
  | PollNotPassed : ContractError
  | PollVotingPeriod : ContractError
  | TimelockNotExpired : ContractError
  | SnapshotHeight : ContractError
  | SnapshotAlreadyOccurred : ContractError
  | AlreadyVoted : ContractError
  | InsufficientFunds : ContractError
  | InsufficientProposalDeposit : Nat → ContractError
  | InvalidWithdrawAmount : ContractError
  | NothingStaked : ContractError
  | DataShouldBeGiven : ContractError
  deriving DecidableEq, Repr

/-- Outcome of executing an entry point: success, a returned
ContractError (the transaction reverts), or a Rust panic / abort. -/
inductive Res (α : Type) : Type where
  | ok : α → Res α
  | err : ContractError → Res α
  | panic : Res α

abbrev Addr := String

inductive VoteOption : Type where
  | yes : VoteOption
  | no : VoteOption
  deriving DecidableEq, Repr

structure VoteInfo where
  vote : VoteOption
  balance : Nat
  deriving DecidableEq, Repr

inductive PollStatus : Type where
  | inProgress : PollStatus
  | passed : PollStatus
  | rejected : PollStatus
  | executed : PollStatus
  deriving DecidableEq, Repr

mutual

/-- Opaque Binary payloads: an uninterpreted blob, an encoded dao-gov
ExecuteMsg, an encoded Cw20HookMsg, or an encoded Cw20 Transfer
instruction. -/
inductive Bin : Type where
  | blob : Nat → Bin
  | encX : XMsg → Bin
  | encHook : HookMsg → Bin
  | transfer : Addr → Nat → Bin

/-- dao-gov ExecuteMsg (contract.rs dispatch). -/
inductive XMsg : Type where
  | receive : Addr → Nat → Bin → XMsg
  | executePollMsgs : Nat → XMsg
  | updateConfig : Option Addr → Option Addr → Option Nat → Option Nat →
      Option Nat → Option Nat → Option Nat → Option Nat → XMsg
  | castVote : Nat → VoteOption → Nat → XMsg
  | withdrawVotingTokens : Option Nat → XMsg
  | endPoll : Nat → XMsg
  | executePoll : Nat → XMsg
  | snapshotPoll : Nat → XMsg

/-- Cw20HookMsg carried inside Receive (msg.rs). -/
inductive HookMsg : Type where
  | stakeVotingTokens : HookMsg
  | createPoll : String → String → Option String →
      Option (List PollExecuteMsg) → HookMsg

/-- PollExecuteMsg (msg.rs): order, target contract, payload. -/
inductive PollExecuteMsg : Type where
  | mk : Nat → String → Bin → PollExecuteMsg

end

def PollExecuteMsg.order : PollExecuteMsg → Nat
  | .mk o _ _ => o

def PollExecuteMsg.contract : PollExecuteMsg → String
  | .mk _ c _ => c

def PollExecuteMsg.payload : PollExecuteMsg → Bin
  | .mk _ _ m => m

/-- ExecuteData as stored inside a poll (state.rs declaration used by
execute.rs; contract address canonicalized, which is the identity
here). -/
structure ExecuteData where
  order : Nat
  contract : Addr
  msg : Bin

structure Poll where
  id : Nat
  creator : Addr
  status : PollStatus
  yesVotes : Nat
  noVotes : Nat
  endHeight : Nat
  title : String
  description : String
  link : Option String
  executeData : Option (List ExecuteData)
  depositAmount : Nat
  totalBalanceAtEndPoll : Option Nat
  stakedAmount : Option Nat

structure TokenManager where
  share : Nat
  lockedBalance : List (Nat × VoteInfo)

instance : Inhabited TokenManager := ⟨⟨0, []⟩⟩

/-- TokenManager::default(): zero share, no locked votes. -/
def TokenManager.default : TokenManager := ⟨0, []⟩

structure Config where
  owner : Addr
  cw20Token : Addr
  quorum : Nat
  threshold : Nat
  votingPeriod : Nat
  timelockPeriod : Nat
  proposalDeposit : Nat
  snapshotPeriod : Nat

structure StateRec where
  contractAddr : Addr
  pollCount : Nat
  totalShare : Nat
  totalDeposit : Nat

/-- The whole persistent storage of the dao-gov contract. -/
structure GovState where
  config : Config
  st : StateRec
  polls : List (Nat × Poll)
  voters : List ((Nat × Addr) × VoteInfo)
  bank : List (Addr × TokenManager)
  tmpPollId : Option Nat

/-- Execution environment of one call: block height, the cw20 balance
of the contract as the token contract would report it, and the
contract's own address. -/
structure Env where
  height : Nat
  tokenBalance : Nat
  contractAddr : Addr

/-- An outgoing wasm message: target contract, payload, and the reply
id when it is sent as a reply-on-error submessage. -/
structure OutMsg where
  contract : Addr
  msg : Bin
  replyOnError : Option Nat

structure Response where
  msgs : List OutMsg
  attrs : List (String × String)

def Response.empty : Response := ⟨[], []⟩

/-- Decimal atomics denominator: cosmwasm Decimal stores 18 fractional
decimal digits. -/
def decOne : Nat := 1000000000000000000

/-- Decimal::from_ratio modelled on atomics, total on a zero
denominator (the call sites guard the panic case explicitly). -/
def fromRatio (n d : Nat) : Nat := n * decOne / d

def voteStr : VoteOption → String
  | .yes => "yes"
  | .no => "no"

/-- Stable insertion of an ExecuteData into an order-sorted list. -/
def insertByOrder (e : ExecuteData) : List ExecuteData → List ExecuteData
  | [] => [e]
  | f :: rest => if e.order < f.order then e :: f :: rest else f :: insertByOrder e rest

/-- msgs.sort() in execute_poll_messages: ascending by the order key. -/
def sortByOrder : List ExecuteData → List ExecuteData
  | [] => []
  | e :: rest => insertByOrder e (sortByOrder rest)

/-- stake_voting_tokens (execute.rs 477-520). -/
def stakeVotingTokens (g : GovState) (env : Env) (sender : Addr) (amount : Nat) :
    Res (GovState × Response) :=
  if amount = 0 then .err .InsufficientFunds
  else
    let tm := (alLookup g.bank sender).getD TokenManager.default
    if g.st.totalDeposit + amount ≤ env.tokenBalance then
      let totalBalance := env.tokenBalance - (g.st.totalDeposit + amount)
      let share :=
        if totalBalance = 0 ∨ g.st.totalShare = 0 then amount
        else amount * g.st.totalShare / totalBalance
      .ok ({ g with
              st := { g.st with totalShare := g.st.totalShare + share }
              bank := (alInsert g.bank sender
                { tm with share := tm.share + share }) },
           { msgs := []
             attrs := [("action", "staking"), ("sender", sender),
                       ("share", toString share), ("amount", toString amount)] })
    else .err .Std

/-- create_poll (execute.rs 55-133).  validate_title, validate_description
and validate_link live in the missing utils.rs; they only bound string
lengths (spec section 7) and are modelled as always succeeding since no
claim depends on the bounds. -/
def createPoll (g : GovState) (env : Env) (proposer : Addr) (depositAmount : Nat)
    (title description : String) (link : Option String)
    (executeMsgs : Option (List PollExecuteMsg)) : Res (GovState × Response) :=
  if depositAmount < g.config.proposalDeposit then
    .err (.InsufficientProposalDeposit g.config.proposalDeposit)
  else
    let pollId := g.st.pollCount + 1
    let st' := { g.st with
                  pollCount := g.st.pollCount + 1
                  totalDeposit := g.st.totalDeposit + depositAmount }
    let allExecuteData :=
      executeMsgs.map (fun l => l.map (fun m => ExecuteData.mk m.order m.contract m.payload))
    let newPoll : Poll :=
      { id := pollId
        creator := proposer
        status := .inProgress
        yesVotes := 0
        noVotes := 0
        endHeight := env.height + g.config.votingPeriod
        title := title
        description := description
        link := link
        executeData := allExecuteData
        depositAmount := depositAmount
        totalBalanceAtEndPoll := none
        stakedAmount := none }
    .ok ({ g with st := st', polls := alInsert g.polls pollId newPoll },
         { msgs := []
           attrs := [("action", "create_poll"), ("creator", proposer),
                     ("poll_id", toString pollId),
                     ("end_height", toString newPoll.endHeight)] })

/-- receive_cw20 (execute.rs 19-53). -/
def receiveCw20 (g : GovState) (env : Env) (caller : Addr) (sender : Addr)
    (amount : Nat) (msg : Bin) : Res (GovState × Response) :=
  if g.config.cw20Token ≠ caller then .err .Unauthorized
  else
    match msg with
    | .encHook .stakeVotingTokens => stakeVotingTokens g env sender amount
    | .encHook (.createPoll title description link executeMsgs) =>
        createPoll g env sender amount title description link executeMsgs
    | _ => .err .DataShouldBeGiven

/-- cast_vote (execute.rs 245-332). -/
def castVote (g : GovState) (env : Env) (caller : Addr) (pollId : Nat)
    (vote : VoteOption) (amount : Nat) : Res (GovState × Response) :=
  if pollId = 0 ∨ g.st.pollCount < pollId then .err .PollNotFound
  else
    match alLookup g.polls pollId with
    | none => .err .Std
    | some aPoll =>
      if aPoll.status ≠ .inProgress ∨ aPoll.endHeight < env.height then
        .err .PollNotInProgress
      else if (alLookup g.voters (pollId, caller)).isSome then .err .AlreadyVoted
      else
        let tm := (alLookup g.bank caller).getD TokenManager.default
        if g.st.totalDeposit ≤ env.tokenBalance then
          let totalBalance := env.tokenBalance - g.st.totalDeposit
          if g.st.totalShare = 0 then .panic
          else if tm.share * totalBalance / g.st.totalShare < amount then
            .err .InsufficientFunds
          else
            let poll1 :=
              match vote with
              | .yes => { aPoll with yesVotes := aPoll.yesVotes + amount }
              | .no => { aPoll with noVotes := aPoll.noVotes + amount }
            let voteInfo : VoteInfo := ⟨vote, amount⟩
            let tm' := { tm with lockedBalance := tm.lockedBalance ++ [(pollId, voteInfo)] }
            if env.height ≤ aPoll.endHeight then
              let timeToEnd := aPoll.endHeight - env.height
              let poll2 :=
                if timeToEnd < g.config.snapshotPeriod ∧ aPoll.stakedAmount = none then
                  { poll1 with stakedAmount := some totalBalance }
                else poll1
              .ok ({ g with
                      polls := alInsert g.polls pollId poll2
                      voters := alInsert g.voters (pollId, caller) voteInfo
                      bank := alInsert g.bank caller tm' },
                   { msgs := []
                     attrs := [("action", "cast_vote"), ("poll_id", toString pollId),
                               ("amount", toString amount), ("voter", caller),
                               ("vote_option", voteStr vote)] })
            else .panic
        else .err .Std

/-- snapshot_poll (execute.rs 204-242).  The u64 subtraction
end_height - block.height is unchecked in the source: with the block
past end_height it underflows and the call aborts. -/
def snapshotPoll (g : GovState) (env : Env) (pollId : Nat) : Res (GovState × Response) :=
  match alLookup g.polls pollId with
  | none => .err .Std
  | some aPoll =>
    if aPoll.status ≠ .inProgress then .err .PollNotInProgress
    else if aPoll.endHeight < env.height then .panic
    else
      let timeToEnd := aPoll.endHeight - env.height
      if g.config.snapshotPeriod < timeToEnd then .err .SnapshotHeight
      else if aPoll.stakedAmount.isSome then .err .SnapshotAlreadyOccurred
      else if g.st.totalDeposit ≤ env.tokenBalance then
        let stakedAmount := env.tokenBalance - g.st.totalDeposit
        .ok ({ g with polls := (alInsert g.polls pollId
                { aPoll with stakedAmount := some stakedAmount }) },
             { msgs := []
               attrs := [("action", "snapshot_poll"), ("poll_id", toString pollId),
                         ("staked_amount", toString stakedAmount)] })
      else .err .Std

/-- The decision tail of end_poll (execute.rs 346-426), once the
(quorum, staked_weight) pair has been computed. -/
def endPollDecide (g : GovState) (env : Env) (pollId : Nat) (aPoll : Poll)
    (quorum stakedWeight : Nat) : Res (GovState × Response) :=
  let no := aPoll.noVotes
  let yes := aPoll.yesVotes
  let talliedWeight := yes + no
  let quorumMiss := talliedWeight = 0 ∨ quorum < g.config.quorum
  let passed := ¬quorumMiss ∧ g.config.threshold < fromRatio yes talliedWeight
  let pollStatus : PollStatus := if passed then .passed else .rejected
  let rejectedReason :=
    if quorumMiss then "Quorum not reached"
    else if passed then "" else "Threshold not reached"
  let messages : List OutMsg :=
    if ¬quorumMiss ∧ aPoll.depositAmount ≠ 0 then
      [⟨g.config.cw20Token, .transfer aPoll.creator aPoll.depositAmount, none⟩]
    else []
  if aPoll.depositAmount ≤ g.st.totalDeposit then
    .ok ({ g with
            st := ({ g.st with
              totalDeposit := (g.st.totalDeposit - aPoll.depositAmount) })
            polls := (alInsert g.polls pollId
              { aPoll with
                  status := pollStatus
                  totalBalanceAtEndPoll := some stakedWeight }) },
         { msgs := messages
           attrs := [("action", "end_poll"), ("poll_id", toString pollId),
                     ("rejected_reason", rejectedReason),
                     ("passed", if passed then "true" else "false")] })
  else .err .Std

/-- end_poll (execute.rs 335-426). -/
def endPoll (g : GovState) (env : Env) (pollId : Nat) : Res (GovState × Response) :=
  match alLookup g.polls pollId with
  | none => .err .Std
  | some aPoll =>
    if aPoll.status ≠ .inProgress then .err .PollNotInProgress
    else if env.height < aPoll.endHeight then .err .PollVotingPeriod
    else
      let talliedWeight := aPoll.yesVotes + aPoll.noVotes
      let quorumAndWeight : Res (Nat × Nat) :=
        if g.st.totalShare = 0 then .ok (0, 0)
        else
          match aPoll.stakedAmount with
          | some stakedAmount =>
            if stakedAmount = 0 then .panic
            else .ok (fromRatio talliedWeight stakedAmount, stakedAmount)
          | none =>
            if g.st.totalDeposit ≤ env.tokenBalance then
              let stakedWeight := env.tokenBalance - g.st.totalDeposit
              if stakedWeight = 0 then .panic
              else .ok (fromRatio talliedWeight stakedWeight, stakedWeight)
            else .err .Std
      match quorumAndWeight with
      | .err e => .err e
      | .panic => .panic
      | .ok (quorum, stakedWeight) =>
        endPollDecide g env pollId aPoll quorum stakedWeight

/-- execute_poll (execute.rs 139-161). -/
def executePoll (g : GovState) (env : Env) (pollId : Nat) : Res (GovState × Response) :=
  match alLookup g.polls pollId with
  | none => .err .Std
  | some aPoll =>
    if aPoll.status ≠ .passed then .err .PollNotPassed
    else if env.height < aPoll.endHeight + g.config.timelockPeriod then
      .err .TimelockNotExpired
    else
      .ok ({ g with tmpPollId := some aPoll.id },
           { msgs := [⟨env.contractAddr, .encX (.executePollMsgs pollId), some 1⟩]
             attrs := [] })

/-- execute_poll_messages (execute.rs 164-201): the only guard is that
the caller is the contract itself; the poll's prior status is not
checked. -/
def executePollMessages (g : GovState) (env : Env) (caller : Addr) (pollId : Nat) :
    Res (GovState × Response) :=
  if env.contractAddr ≠ caller then .err .Unauthorized
  else
    match alLookup g.polls pollId with
    | none => .err .Std
    | some aPoll =>
      let messages :=
        match aPoll.executeData with
        | some allMsgs => (sortByOrder allMsgs).map (fun d => OutMsg.mk d.contract d.msg none)
        | none => []
      .ok ({ g with polls := alInsert g.polls pollId { aPoll with status := .executed } },
           { msgs := messages
             attrs := [("action", "execute_poll"), ("poll_id", toString pollId)] })

/-- update_config (execute.rs 429-474).  Note: no re-validation of
quorum or threshold is performed here. -/
def updateConfig (g : GovState) (caller : Addr) (owner cw20Token : Option Addr)
    (quorum threshold votingPeriod timelockPeriod proposalDeposit snapshotPeriod :
      Option Nat) : Res (GovState × Response) :=
  if g.config.owner ≠ caller then .err .Unauthorized
  else
    .ok ({ g with config :=
            { owner := owner.getD g.config.owner
              cw20Token := cw20Token.getD g.config.cw20Token
              quorum := quorum.getD g.config.quorum
              threshold := threshold.getD g.config.threshold
              votingPeriod := votingPeriod.getD g.config.votingPeriod
              timelockPeriod := timelockPeriod.getD g.config.timelockPeriod
              proposalDeposit := proposalDeposit.getD g.config.proposalDeposit
              snapshotPeriod := snapshotPeriod.getD g.config.snapshotPeriod } },
         { msgs := [], attrs := [("action", "update_config")] })

/-- compute_locked_balance (execute.rs 523-546): drop locked entries
whose poll is no longer in progress, removing their poll-voter record,
and keep the rest.  The poll load uses unwrap, so a dangling poll id
aborts.  Returns the retained entries and the updated voter map; the
maximum balance is taken by the caller. -/
def computeLockedBalance (polls : List (Nat × Poll)) (voter : Addr) :
    List (Nat × VoteInfo) → List ((Nat × Addr) × VoteInfo) →
    Res (List (Nat × VoteInfo) × List ((Nat × Addr) × VoteInfo))
  | [], voters => .ok ([], voters)
  | (pollId, vi) :: rest, voters =>
    match alLookup polls pollId with
    | none => .panic
    | some poll =>
      if poll.status = .inProgress then
        match computeLockedBalance polls voter rest voters with
        | .ok (kept, voters') => .ok ((pollId, vi) :: kept, voters')
        | .err e => .err e
        | .panic => .panic
      else
        computeLockedBalance polls voter rest (alRemove voters (pollId, voter))

/-- Maximum locked balance: iter().map(balance).max().unwrap_or_default(). -/
def maxBalance (l : List (Nat × VoteInfo)) : Nat :=
  l.foldr (fun e acc => max e.2.balance acc) 0

/-- withdraw_voting_tokens (execute.rs 549-614).  The divisions on
lines 573 and 581 and the subtraction on line 578 are unchecked u128
arithmetic and abort on a zero divisor or underflow. -/
def withdrawVotingTokens (g : GovState) (env : Env) (sender : Addr)
    (amount : Option Nat) : Res (GovState × Response) :=
  match alLookup g.bank sender with
  | none => .err .NothingStaked
  | some tm =>
    let totalShare := g.st.totalShare
    if g.st.totalDeposit ≤ env.tokenBalance then
      let totalBalance := env.tokenBalance - g.st.totalDeposit
      match computeLockedBalance g.polls sender tm.lockedBalance g.voters with
      | .err e => .err e
      | .panic => .panic
      | .ok (kept, voters') =>
        let lockedBalance := maxBalance kept
        if totalBalance = 0 then .panic
        else
          let lockedShare := lockedBalance * totalShare / totalBalance
          let userShare := tm.share
          let withdrawShareRes : Res Nat :=
            match amount with
            | some v => .ok (max (v * totalShare / totalBalance) 1)
            | none => if userShare < lockedShare then .panic else .ok (userShare - lockedShare)
          match withdrawShareRes with
          | .err e => .err e
          | .panic => .panic
          | .ok withdrawShare =>
            let withdrawAmountRes : Res Nat :=
              match amount with
              | some v => .ok v
              | none =>
                if totalShare = 0 then .panic
                else .ok (withdrawShare * totalBalance / totalShare)
            match withdrawAmountRes with
            | .err e => .err e
            | .panic => .panic
            | .ok withdrawAmount =>
              if userShare < lockedShare + withdrawShare then .err .InvalidWithdrawAmount
              else if withdrawShare ≤ totalShare then
                .ok ({ g with
                        st := { g.st with totalShare := totalShare - withdrawShare }
                        voters := voters'
                        bank := (alInsert g.bank sender
                          { tm with share := userShare - withdrawShare, lockedBalance := kept }) },
                     { msgs := [⟨g.config.cw20Token, .transfer sender withdrawAmount, none⟩]
                       attrs := [("action", "withdraw"), ("recipient", sender),
                                 ("amount", toString withdrawAmount)] })
              else .panic
    else .err .Std

/-- InstantiateMsg of the fungible engine (fields as consumed by
contract.rs instantiate). -/
structure InstantiateMsg where
  cw20Token : Addr
  quorum : Nat
  threshold : Nat
  votingPeriod : Nat
  timelockPeriod : Nat
  proposalDeposit : Nat
  snapshotPeriod : Nat

/-- instantiate (contract.rs 25-57) with validate_quorum and
validate_threshold (contract.rs 104-119). -/
def instantiateGov (env : Env) (sender : Addr) (msg : InstantiateMsg) :
    Res (GovState × Response) :=
  if decOne < msg.quorum then .err .Std
  else if decOne < msg.threshold then .err .Std
  else
    .ok ({ config :=
            { owner := sender
              cw20Token := msg.cw20Token
              quorum := msg.quorum
              threshold := msg.threshold
              votingPeriod := msg.votingPeriod
              timelockPeriod := msg.timelockPeriod
              proposalDeposit := msg.proposalDeposit
              snapshotPeriod := msg.snapshotPeriod }
           st := { contractAddr := env.contractAddr
                   pollCount := 0
                   totalShare := 0
                   totalDeposit := 0 }
           polls := []
           voters := []
           bank := []
           tmpPollId := none },
         Response.empty)

/-- The execute dispatch (contract.rs 59-100). -/
def executeStep (g : GovState) (env : Env) (caller : Addr) (m : XMsg) :
    Res (GovState × Response) :=
  match m with
  | .receive sender amount msg => receiveCw20 g env caller sender amount msg
  | .executePollMsgs pollId => executePollMessages g env caller pollId
  | .updateConfig o c q t vp tp pd sp => updateConfig g caller o c q t vp tp pd sp
  | .castVote pollId vote amount => castVote g env caller pollId vote amount
  | .withdrawVotingTokens amount => withdrawVotingTokens g env caller amount
  | .endPoll pollId => endPoll g env pollId
  | .executePoll pollId => executePoll g env pollId
  | .snapshotPoll pollId => snapshotPoll g env pollId

namespace Cw721

/-- dao-cw721 contract errors (dao-cw721/src/error.rs). -/
inductive Error : Type where
  | Std : Error
  | Unauthorized : Error
  | InvalidExecute : Error
  | Claimed : Error
  | Expired : Error
  deriving DecidableEq, Repr

/-- TokenInfo as used by execute_dao: only the owner field matters to
the gateway logic (token_uri and extension are carried opaquely). -/
structure TokenInfo where
  owner : Addr
  deriving DecidableEq, Repr

/-- Storage of the dao-cw721 contract relevant to execute_dao. -/
structure St where
  owner : Addr
  govContract : Addr
  tokens : List (String × TokenInfo)

/-- Cw721ReceiveMsg payload forwarded to the governance contract. -/
structure ReceiveMsg where
  sender : Addr
  tokenId : String
  msg : Nat
  deriving DecidableEq, Repr

structure OutMsg where
  contract : Addr
  receive : ReceiveMsg
  deriving DecidableEq, Repr

structure Resp where
  msgs : List OutMsg
  attrs : List (String × String)
  deriving DecidableEq, Repr

inductive R (α : Type) : Type where
  | ok : α → R α
  | err : Error → R α

/-- execute_dao (dao-cw721/src/execute.rs 138-163). -/
def executeDao (s : St) (caller : Addr) (tokenId : String) (msg : Nat) :
    R (St × Resp) :=
  match alLookup s.tokens tokenId with
  | none => .err .Std
  | some token =>
    if token.owner ≠ caller then .err .Unauthorized
    else
      .ok (s, { msgs := [⟨s.govContract, ⟨caller, tokenId, msg⟩⟩]
                attrs := [("action", "execute_dao"), ("sender", caller),
                          ("token_id", tokenId)] })

end Cw721

/-- What one labelled step of the chain does.  An ext step is an
external transaction hitting the execute entry point; deliver executes
the first pending outgoing wasm message when it is addressed to the
contract itself (this is how the reply-on-error submessage of
execute_poll and any self-addressed poll execute_data message run, with
info.sender equal to the contract address). -/
inductive StepAct : Type where
  | ext : Addr → XMsg → StepAct
  | deliver : StepAct

structure Lbl where
  height : Nat
  tokenBalance : Nat
  act : StepAct

/-- A system configuration: the contract storage plus the queue of
emitted wasm messages not yet dispatched. -/
structure Sys where
  gov : GovState
  outbox : List OutMsg

def decodeX : Bin → Option XMsg
  | .encX m => some m
  | _ => none

/-- Small-step transition.  External calls run only between
transactions (empty outbox) and cannot forge the contract's own
address as sender; a failed external call reverts and commits nothing.
Delivered messages execute with the contract as sender; their emitted
messages are dispatched depth-first before the rest of the queue.  A
failed delivery is absorbed (the reply-on-error frame) leaving the
storage unchanged. -/
def stepFn (sys : Sys) (l : Lbl) : Option Sys :=
  let env : Env := ⟨l.height, l.tokenBalance, sys.gov.st.contractAddr⟩
  match l.act with
  | .ext caller m =>
    match sys.outbox with
    | [] =>
      if caller ≠ sys.gov.st.contractAddr then
        match executeStep sys.gov env caller m with
        | .ok (g', resp) => some ⟨g', resp.msgs⟩
        | _ => none
      else none
    | _ :: _ => none
  | .deliver =>
    match sys.outbox with
    | [] => none
    | w :: rest =>
      if w.contract = sys.gov.st.contractAddr then
        match decodeX w.msg with
        | some m =>
          match executeStep sys.gov env sys.gov.st.contractAddr m with
          | .ok (g', resp) => some ⟨g', resp.msgs ++ rest⟩
          | _ => some ⟨sys.gov, rest⟩
        | none => some ⟨sys.gov, rest⟩
      else some ⟨sys.gov, rest⟩

/-- Run a list of labelled steps. -/
def runLbls (sys : Sys) : List Lbl → Option Sys
  | [] => some sys
  | l :: ls =>
    match stepFn sys l with
    | some s' => runLbls s' ls
    | none => none

/-- The message a step executes on the contract, when there is one. -/
def lblMsg (sys : Sys) (l : Lbl) : Option XMsg :=
  match l.act with
  | .ext _ m => some m
  | .deliver =>
    match sys.outbox with
    | [] => none
    | w :: _ =>
      if w.contract = sys.gov.st.contractAddr then decodeX w.msg else none

def pollStatusAt (g : GovState) (p : Nat) : Option PollStatus :=
  (alLookup g.polls p).map Poll.status

/-! Sample concrete fixtures used by witnesses. -/

def pollInProgress : Poll :=
  { id := 1, creator := "alice", status := .inProgress, yesVotes := 0, noVotes := 0,
    endHeight := 10, title := "t", description := "d", link := none,
    executeData := none, depositAmount := 0, totalBalanceAtEndPoll := none,
    stakedAmount := none }

def pollPassed : Poll :=
  { pollInProgress with id := 2, status := .passed }

def gEx : GovState :=
  { config :=
      { owner := "alice", cw20Token := "token", quorum := 100000000000000000,
        threshold := 500000000000000000, votingPeriod := 10, timelockPeriod := 5,
        proposalDeposit := 0, snapshotPeriod := 3 }
    st := { contractAddr := "gov", pollCount := 2, totalShare := 100, totalDeposit := 0 }
    polls := [(1, pollInProgress), (2, pollPassed)]
    voters := []
    bank := [("alice", ⟨100, []⟩)]
    tmpPollId := none }

/-- Claim C7: execute_poll fails with PollNotPassed for every poll whose
status is not Passed, fails with TimelockNotExpired whenever the block
height is below end_height + timelock_period, and on success changes no
poll, only storing the poll id in the scratch slot and emitting exactly
one reply-on-error submessage with reply id 1 that invokes this
contract's own ExecutePollMsgs entry point. -/
theorem c7_execute_poll (g : GovState) (env : Env) (pollId : Nat) (aPoll : Poll)
    (hp : alLookup g.polls pollId = some aPoll) :
    (executePoll g env pollId = .err .PollNotPassed ↔ aPoll.status ≠ .passed) ∧
    (aPoll.status = .passed →
      (executePoll g env pollId = .err .TimelockNotExpired ↔
        env.height < aPoll.endHeight + g.config.timelockPeriod)) ∧
    (aPoll.status = .passed → aPoll.endHeight + g.config.timelockPeriod ≤ env.height →
      executePoll g env pollId =
        .ok ({ g with tmpPollId := some aPoll.id },
             { msgs := [⟨env.contractAddr, .encX (.executePollMsgs pollId), some 1⟩]
               attrs := [] })) := by
  refine ⟨?_, ?_, ?_⟩
  · by_cases hs : aPoll.status = .passed
    · by_cases ht : env.height < aPoll.endHeight + g.config.timelockPeriod <;>
        simp [executePoll, hp, hs, ht]
    · simp [executePoll, hp, hs]
  · intro hs
    by_cases ht : env.height < aPoll.endHeight + g.config.timelockPeriod <;>
      simp [executePoll, hp, hs, ht]
  · intro hs ht
    simp [executePoll, hp, hs, Nat.not_lt.mpr ht]

theorem c7_execute_poll_witness :
    (executePoll gEx ⟨20, 0, "gov"⟩ 2 = .err .PollNotPassed ↔ pollPassed.status ≠ .passed) ∧
    executePoll gEx ⟨20, 0, "gov"⟩ 2 =
      .ok ({ gEx with tmpPollId := some pollPassed.id },
           { msgs := [⟨"gov", .encX (.executePollMsgs 2), some 1⟩], attrs := [] }) :=
  ⟨(c7_execute_poll gEx ⟨20, 0, "gov"⟩ 2 pollPassed rfl).1,
   (c7_execute_poll gEx ⟨20, 0, "gov"⟩ 2 pollPassed rfl).2.2 rfl (by decide)⟩

def cwEx : Cw721.St :=
  { owner := "minter", govContract := "gov", tokens := [("nft1", ⟨"alice"⟩)] }

/-- Claim C8: for every existing token id, execute_dao fails with
Unauthorized iff the caller is not the token's owner, and on success
changes no token state and emits exactly one forward message to
gov_contract carrying the Cw721ReceiveMsg payload with the caller as
sender, the token id and the payload. -/
theorem c8_execute_dao (s : Cw721.St) (caller : Addr) (tokenId : String) (msg : Nat)
    (token : Cw721.TokenInfo) (hp : alLookup s.tokens tokenId = some token) :
    (Cw721.executeDao s caller tokenId msg = .err .Unauthorized ↔ token.owner ≠ caller) ∧
    (token.owner = caller →
      Cw721.executeDao s caller tokenId msg =
        .ok (s, { msgs := [⟨s.govContract, ⟨caller, tokenId, msg⟩⟩]
                  attrs := [("action", "execute_dao"), ("sender", caller),
                            ("token_id", tokenId)] })) := by
  constructor
  · by_cases ho : token.owner = caller <;> simp [Cw721.executeDao, hp, ho]
  · intro ho
    simp [Cw721.executeDao, hp, ho]

theorem c8_execute_dao_witness :
    Cw721.executeDao cwEx "alice" "nft1" 7 =
      .ok (cwEx, { msgs := [⟨"gov", ⟨"alice", "nft1", 7⟩⟩]
                   attrs := [("action", "execute_dao"), ("sender", "alice"),
                             ("token_id", "nft1")] }) :=
  (c8_execute_dao cwEx "alice" "nft1" 7 ⟨"alice"⟩ rfl).2 rfl

/-- Claim C10: snapshot_poll on a poll still InProgress whose end_height
is strictly below the current block height underflows the u64
subtraction end_height - block.height and aborts with a panic rather
than a ContractError, while cast_vote on the same poll is immune: it
returns PollNotInProgress first. -/
theorem c10_snapshot_underflow (g : GovState) (env : Env) (pollId : Nat) (aPoll : Poll)
    (hp : alLookup g.polls pollId = some aPoll)
    (hs : aPoll.status = .inProgress)
    (hh : aPoll.endHeight < env.height) :
    snapshotPoll g env pollId = .panic ∧
    (∀ caller vote amount, 1 ≤ pollId → pollId ≤ g.st.pollCount →
      castVote g env caller pollId vote amount = .err .PollNotInProgress) := by
  constructor
  · simp [snapshotPoll, hp, hs, hh]
  · intro caller vote amount h1 h2
    have hnf : ¬(pollId = 0 ∨ g.st.pollCount < pollId) := by omega
    simp [castVote, hp, hnf, hh]

theorem c10_snapshot_underflow_witness :
    snapshotPoll gEx ⟨11, 0, "gov"⟩ 1 = .panic ∧
    castVote gEx ⟨11, 0, "gov"⟩ "bob" 1 .yes 5 = .err .PollNotInProgress :=
  ⟨(c10_snapshot_underflow gEx ⟨11, 0, "gov"⟩ 1 pollInProgress rfl rfl (by decide)).1,
   (c10_snapshot_underflow gEx ⟨11, 0, "gov"⟩ 1 pollInProgress rfl rfl (by decide)).2
     "bob" .yes 5 (by decide) (by decide)⟩

theorem computeLockedBalance_ne_err (polls : List (Nat × Poll)) (voter : Addr)
    (locked : List (Nat × VoteInfo)) (voters : List ((Nat × Addr) × VoteInfo))
    (e : ContractError) :
    computeLockedBalance polls voter locked voters ≠ .err e := by
  induction locked generalizing voters with
  | nil => simp [computeLockedBalance]
  | cons hd tl ih =>
    obtain ⟨pid, vi⟩ := hd
    simp only [computeLockedBalance]
    match hlk : alLookup polls pid with
    | none => simp
    | some poll =>
      by_cases hst : poll.status = .inProgress
      · simp only [hst, if_pos rfl]
        cases hc : computeLockedBalance polls voter tl voters with
        | ok p => simp
        | err e' =>
          simp only [hc]
          intro h2
          have he : e' = e := by injection h2
          subst he
          exact (ih voters) hc
        | panic => simp
      · simp only [if_neg hst]
        exact ih _

/-- Claim C9: withdraw_voting_tokens uses unguarded u128 division: with
an existing bank entry and token_balance equal to total_deposit the
locked-share division panics, and with amount absent and total_share
zero the withdraw-amount division panics; neither case returns a
ContractError. -/
theorem c9_withdraw_panics :
    (∀ (g : GovState) (env : Env) (sender : Addr) (tm : TokenManager)
        (amount : Option Nat),
      alLookup g.bank sender = some tm →
      env.tokenBalance = g.st.totalDeposit →
      withdrawVotingTokens g env sender amount = .panic) ∧
    (∀ (g : GovState) (env : Env) (sender : Addr) (tm : TokenManager),
      alLookup g.bank sender = some tm →
      g.st.totalShare = 0 →
      g.st.totalDeposit ≤ env.tokenBalance →
      withdrawVotingTokens g env sender none = .panic) := by
  constructor
  · intro g env sender tm amount hbank hbal
    have htd : g.st.totalDeposit ≤ env.tokenBalance := le_of_eq hbal.symm
    have htb : env.tokenBalance - g.st.totalDeposit = 0 := by omega
    simp only [withdrawVotingTokens, hbank, htd, if_pos, htb]
    cases hc : computeLockedBalance g.polls sender tm.lockedBalance g.voters with
    | ok p => simp
    | err e => exact absurd hc (computeLockedBalance_ne_err _ _ _ _ e)
    | panic => simp
  · intro g env sender tm hbank hts htd
    simp only [withdrawVotingTokens, hbank, htd, if_pos, hts]
    cases hc : computeLockedBalance g.polls sender tm.lockedBalance g.voters with
    | ok p =>
      obtain ⟨kept, voters'⟩ := p
      by_cases htb : env.tokenBalance - g.st.totalDeposit = 0
      · simp [htb]
      · simp [htb, hts, Nat.not_lt_zero]
    | err e => exact absurd hc (computeLockedBalance_ne_err _ _ _ _ e)
    | panic => simp

def gC9a : GovState :=
  { gEx with st := { gEx.st with totalDeposit := 5 } }

def gC9b : GovState :=
  { gEx with st := { gEx.st with totalShare := 0 } }

theorem c9_withdraw_panics_witness :
    withdrawVotingTokens gC9a ⟨0, 5, "gov"⟩ "alice" (some 1) = .panic ∧
    withdrawVotingTokens gC9b ⟨0, 10, "gov"⟩ "alice" none = .panic :=
  ⟨c9_withdraw_panics.1 gC9a ⟨0, 5, "gov"⟩ "alice" ⟨100, []⟩ (some 1) rfl rfl,
   c9_withdraw_panics.2 gC9b ⟨0, 10, "gov"⟩ "alice" ⟨100, []⟩ rfl rfl (by decide)⟩

/-- Claim C5: staking zero fails with InsufficientFunds; for amount > 0
the credited share is amount when total_balance = 0 or total_share = 0
and amount * total_share / total_balance otherwise, with total_balance
= token_balance - total_deposit - amount; the sender's bank share and
state.total_share both grow by exactly that share and no other bank
entry changes. -/
theorem c5_stake (g : GovState) (env : Env) (sender : Addr) (amount : Nat)
    (hbal : g.st.totalDeposit + amount ≤ env.tokenBalance) :
    (amount = 0 → stakeVotingTokens g env sender amount = .err .InsufficientFunds) ∧
    (amount ≠ 0 →
      ∃ g' resp, stakeVotingTokens g env sender amount = .ok (g', resp) ∧
        alLookup g'.bank sender =
          some ⟨((alLookup g.bank sender).getD TokenManager.default).share +
                  (if env.tokenBalance - g.st.totalDeposit - amount = 0 ∨
                      g.st.totalShare = 0 then amount
                   else amount * g.st.totalShare /
                     (env.tokenBalance - g.st.totalDeposit - amount)),
                ((alLookup g.bank sender).getD TokenManager.default).lockedBalance⟩ ∧
        g'.st.totalShare = g.st.totalShare +
          (if env.tokenBalance - g.st.totalDeposit - amount = 0 ∨
              g.st.totalShare = 0 then amount
           else amount * g.st.totalShare /
             (env.tokenBalance - g.st.totalDeposit - amount)) ∧
        (∀ k, k ≠ sender → alLookup g'.bank k = alLookup g.bank k) ∧
        g'.st.totalDeposit = g.st.totalDeposit ∧
        g'.polls = g.polls) := by
  constructor
  · intro h0
    simp [stakeVotingTokens, h0]
  · intro h0
    have hsub : env.tokenBalance - (g.st.totalDeposit + amount) =
        env.tokenBalance - g.st.totalDeposit - amount := by omega
    simp only [stakeVotingTokens, if_neg h0, if_pos hbal, hsub]
    refine ⟨_, _, rfl, ?_, rfl, ?_, rfl, rfl⟩
    · simp [alLookup_insert_self]
    · intro k hk
      exact alLookup_insert_ne _ _ _ _ hk

theorem c5_stake_witness :
    stakeVotingTokens gEx ⟨0, 150, "gov"⟩ "bob" 50 = .err .InsufficientFunds ∨
    ∃ g' resp, stakeVotingTokens gEx ⟨0, 150, "gov"⟩ "bob" 50 = .ok (g', resp) ∧
      alLookup g'.bank "bob" = some ⟨0 + 50 * 100 / 100, []⟩ :=
  .inr (by
    obtain ⟨g', resp, hok, hbank, -⟩ :=
      (c5_stake gEx ⟨0, 150, "gov"⟩ "bob" 50 (by decide)).2 (by decide)
    exact ⟨g', resp, hok, by simpa using hbank⟩)

/-- Claim C3 counterexample: update_config performs no re-validation,
so the owner can set quorum to 2 (atomics 2 * 10^18) and the call
succeeds, leaving config.quorum above 1. -/
theorem c3_update_config_cex :
    updateConfig gEx "alice" none none (some (2 * decOne)) none none none none none =
      .ok ({ gEx with config := { gEx.config with quorum := 2 * decOne } },
           { msgs := [], attrs := [("action", "update_config")] }) ∧
    decOne < 2 * decOne := by
  constructor
  · rfl
  · decide

/-- Claim C3 amended: update_config fails with Unauthorized for every
sender other than the owner and replaces exactly the provided fields,
but performs no re-validation of quorum or threshold; the bounds
quorum <= 1 and threshold <= 1 are enforced only at instantiation. -/
theorem c3_update_config_amended :
    (∀ (g : GovState) (caller : Addr) (o c : Option Addr)
        (q t vp tp pd sp : Option Nat),
      (updateConfig g caller o c q t vp tp pd sp = .err .Unauthorized ↔
        caller ≠ g.config.owner) ∧
      (caller = g.config.owner →
        updateConfig g caller o c q t vp tp pd sp =
          .ok ({ g with config :=
                  { owner := o.getD g.config.owner
                    cw20Token := c.getD g.config.cw20Token
                    quorum := q.getD g.config.quorum
                    threshold := t.getD g.config.threshold
                    votingPeriod := vp.getD g.config.votingPeriod
                    timelockPeriod := tp.getD g.config.timelockPeriod
                    proposalDeposit := pd.getD g.config.proposalDeposit
                    snapshotPeriod := sp.getD g.config.snapshotPeriod } },
               { msgs := [], attrs := [("action", "update_config")] }))) ∧
    (∀ (env : Env) (sender : Addr) (msg : InstantiateMsg) (g : GovState)
        (resp : Response),
      instantiateGov env sender msg = .ok (g, resp) →
      g.config.quorum ≤ decOne ∧ g.config.threshold ≤ decOne) ∧
    (∀ (env : Env) (sender : Addr) (msg : InstantiateMsg),
      decOne < msg.quorum ∨ decOne < msg.threshold →
      ∃ e, instantiateGov env sender msg = .err e) := by
  refine ⟨?_, ?_, ?_⟩
  · intro g caller o c q t vp tp pd sp
    constructor
    · by_cases ho : g.config.owner = caller
      · have ho' : ¬caller ≠ g.config.owner := fun hc => hc ho.symm
        simp [updateConfig, ho, ho']
      · have ho' : caller ≠ g.config.owner := fun hc => ho hc.symm
        simp [updateConfig, ho, ho']
    · intro ho
      simp [updateConfig, ho]
  · intro env sender msg g resp h
    by_cases hq : decOne < msg.quorum
    · simp [instantiateGov, hq] at h
    · by_cases ht : decOne < msg.threshold
      · simp [instantiateGov, hq, ht] at h
      · simp only [instantiateGov, if_neg hq, if_neg ht, Res.ok.injEq,
          Prod.mk.injEq] at h
        obtain ⟨hg, -⟩ := h
        rw [← hg]
        exact ⟨Nat.not_lt.mp hq, Nat.not_lt.mp ht⟩
  · intro env sender msg h
    by_cases hq : decOne < msg.quorum
    · exact ⟨.Std, by simp [instantiateGov, hq]⟩
    · cases h with
      | inl h' => exact absurd h' hq
      | inr h' => exact ⟨.Std, by simp [instantiateGov, hq, h']⟩

def msgI : InstantiateMsg :=
  ⟨"token", 100000000000000000, 500000000000000000, 10, 5, 0, 3⟩

def gInit : GovState :=
  { config :=
      { owner := "alice", cw20Token := "token", quorum := 100000000000000000,
        threshold := 500000000000000000, votingPeriod := 10, timelockPeriod := 5,
        proposalDeposit := 0, snapshotPeriod := 3 }
    st := { contractAddr := "gov", pollCount := 0, totalShare := 0, totalDeposit := 0 }
    polls := [], voters := [], bank := [], tmpPollId := none }

theorem c3_update_config_amended_witness :
    updateConfig gEx "bob" none none none none none none none none =
      .err .Unauthorized ∧
    gInit.config.quorum ≤ decOne ∧ gInit.config.threshold ≤ decOne :=
  ⟨((c3_update_config_amended.1 gEx "bob" none none none none none none
      none none).1).mpr (by decide),
   (c3_update_config_amended.2.1 ⟨0, 0, "gov"⟩ "alice" msgI gInit
      Response.empty rfl)⟩

/-- Claim C4: cast_vote fails with PollNotFound iff poll_id = 0 or
poll_id exceeds poll_count; otherwise PollNotInProgress iff the poll is
not InProgress or the block height exceeds end_height; otherwise
AlreadyVoted iff a voter record exists; otherwise InsufficientFunds iff
share * (token_balance - total_deposit) / total_share < amount; on
success the chosen tally grows by amount, the vote is appended to the
sender's locked_balance and the voter record is written. -/
theorem c4_cast_vote (g : GovState) (env : Env) (caller : Addr) (pollId : Nat)
    (vote : VoteOption) (amount : Nat) (aPoll : Poll)
    (hpoll : 1 ≤ pollId → pollId ≤ g.st.pollCount →
      alLookup g.polls pollId = some aPoll)
    (hts : g.st.totalShare ≠ 0)
    (htd : g.st.totalDeposit ≤ env.tokenBalance) :
    (castVote g env caller pollId vote amount = .err .PollNotFound ↔
      (pollId = 0 ∨ g.st.pollCount < pollId)) ∧
    (1 ≤ pollId → pollId ≤ g.st.pollCount →
      ((castVote g env caller pollId vote amount = .err .PollNotInProgress ↔
         (aPoll.status ≠ .inProgress ∨ aPoll.endHeight < env.height)) ∧
       (aPoll.status = .inProgress → env.height ≤ aPoll.endHeight →
         ((castVote g env caller pollId vote amount = .err .AlreadyVoted ↔
            (alLookup g.voters (pollId, caller)).isSome = true) ∧
          (alLookup g.voters (pollId, caller) = none →
            ((castVote g env caller pollId vote amount = .err .InsufficientFunds ↔
               ((alLookup g.bank caller).getD TokenManager.default).share *
                 (env.tokenBalance - g.st.totalDeposit) / g.st.totalShare <
                 amount) ∧
             (amount ≤ ((alLookup g.bank caller).getD TokenManager.default).share *
                 (env.tokenBalance - g.st.totalDeposit) / g.st.totalShare →
               ∃ g' resp, castVote g env caller pollId vote amount =
                   .ok (g', resp) ∧
                 (alLookup g'.polls pollId).map Poll.yesVotes =
                   some (aPoll.yesVotes +
                     if vote = .yes then amount else 0) ∧
                 (alLookup g'.polls pollId).map Poll.noVotes =
                   some (aPoll.noVotes +
                     if vote = .no then amount else 0) ∧
                 alLookup g'.voters (pollId, caller) = some ⟨vote, amount⟩ ∧
                 alLookup g'.bank caller =
                   some ⟨((alLookup g.bank caller).getD TokenManager.default).share,
                         ((alLookup g.bank caller).getD
                             TokenManager.default).lockedBalance ++
                           [(pollId, ⟨vote, amount⟩)]⟩))))))) := by
  by_cases hnf : pollId = 0 ∨ g.st.pollCount < pollId
  · have hrun : castVote g env caller pollId vote amount = .err .PollNotFound := by
      simp [castVote, hnf]
    exact ⟨by simp [hrun, hnf], fun h1 h2 => absurd hnf (by omega)⟩
  · have h1 : 1 ≤ pollId := by omega
    have h2 : pollId ≤ g.st.pollCount := by omega
    have hlk := hpoll h1 h2
    by_cases hip : aPoll.status ≠ .inProgress ∨ aPoll.endHeight < env.height
    · have hrun : castVote g env caller pollId vote amount =
          .err .PollNotInProgress := by
        simp [castVote, hnf, hlk, hip]
      refine ⟨by simp [hrun, hnf], fun _ _ => ⟨by simp [hrun, hip], ?_⟩⟩
      intro hst hh
      rcases hip with h | h
      · exact absurd hst h
      · omega
    · have hst : aPoll.status = .inProgress := by
        by_contra hc
        exact hip (Or.inl hc)
      have hh : env.height ≤ aPoll.endHeight := by
        by_contra hc
        exact hip (Or.inr (by omega))
      by_cases hav : (alLookup g.voters (pollId, caller)).isSome = true
      · have hrun : castVote g env caller pollId vote amount =
            .err .AlreadyVoted := by
          simp [castVote, hnf, hlk, hip, hav]
        refine ⟨by simp [hrun, hnf], fun _ _ => ⟨by simp [hrun, hip], ?_⟩⟩
        intro _ _
        refine ⟨by simp [hrun, hav], ?_⟩
        intro hnone
        rw [hnone] at hav
        simp at hav
      · have hav' : alLookup g.voters (pollId, caller) = none := by
          cases hq : alLookup g.voters (pollId, caller) with
          | none => rfl
          | some v => rw [hq] at hav; simp at hav
        by_cases hif : ((alLookup g.bank caller).getD TokenManager.default).share *
            (env.tokenBalance - g.st.totalDeposit) / g.st.totalShare < amount
        · have hrun : castVote g env caller pollId vote amount =
              .err .InsufficientFunds := by
            simp [castVote, hnf, hlk, hip, hav, htd, hts, hif]
          refine ⟨by simp [hrun, hnf], fun _ _ => ⟨by simp [hrun, hip], ?_⟩⟩
          intro _ _
          refine ⟨by simp [hrun, hav], fun _ => ⟨by simp [hrun, hif], ?_⟩⟩
          intro hle
          omega
        · have hok : ∃ g' resp, castVote g env caller pollId vote amount =
              .ok (g', resp) ∧
              (alLookup g'.polls pollId).map Poll.yesVotes =
                some (aPoll.yesVotes + if vote = .yes then amount else 0) ∧
              (alLookup g'.polls pollId).map Poll.noVotes =
                some (aPoll.noVotes + if vote = .no then amount else 0) ∧
              alLookup g'.voters (pollId, caller) = some ⟨vote, amount⟩ ∧
              alLookup g'.bank caller =
                some ⟨((alLookup g.bank caller).getD TokenManager.default).share,
                      ((alLookup g.bank caller).getD
                          TokenManager.default).lockedBalance ++
                        [(pollId, ⟨vote, amount⟩)]⟩ := by
            simp only [castVote, if_neg hnf, hlk, if_neg hip, hav,
              Bool.false_eq_true, if_false, if_pos htd, if_neg hts,
              if_neg hif, if_pos hh]
            refine ⟨_, _, rfl, ?_, ?_, ?_, ?_⟩
            · cases vote <;>
                by_cases hsnap : aPoll.endHeight - env.height <
                    g.config.snapshotPeriod ∧ aPoll.stakedAmount = none <;>
                  simp [alLookup_insert_self, hsnap]
            · cases vote <;>
                by_cases hsnap : aPoll.endHeight - env.height <
                    g.config.snapshotPeriod ∧ aPoll.stakedAmount = none <;>
                  simp [alLookup_insert_self, hsnap]
            · simp [alLookup_insert_self]
            · simp [alLookup_insert_self]
          obtain ⟨g', resp, hrun, hconc⟩ := hok
          refine ⟨by simp [hrun, hnf], fun _ _ => ⟨by simp [hrun, hip], ?_⟩⟩
          intro _ _
          refine ⟨by simp [hrun, hav], fun _ => ⟨by simp [hrun, hif], ?_⟩⟩
          intro _
          exact ⟨g', resp, hrun, hconc⟩

theorem c4_cast_vote_witness :
    ∃ g' resp, castVote gEx ⟨5, 100, "gov"⟩ "alice" 1 .yes 80 = .ok (g', resp) ∧
      (alLookup g'.polls 1).map Poll.yesVotes = some 80 ∧
      alLookup g'.voters (1, "alice") = some ⟨.yes, 80⟩ := by
  obtain ⟨g', resp, hok, hy, -, hv, -⟩ :=
    ((((c4_cast_vote gEx ⟨5, 100, "gov"⟩ "alice" 1 .yes 80 pollInProgress
      (fun _ _ => rfl) (by decide) (by decide)).2 (by decide)
        (by decide)).2 rfl (by decide)).2 rfl).2 (by decide)
  exact ⟨g', resp, hok, by simpa using hy, by simpa using hv⟩

/-- The retain predicate of compute_locked_balance: the entry's poll is
still in progress. -/
def keepEntry (polls : List (Nat × Poll)) (e : Nat × VoteInfo) : Bool :=
  match alLookup polls e.1 with
  | some p => p.status = .inProgress
  | none => false

theorem computeLockedBalance_none_mono (polls : List (Nat × Poll)) (voter : Addr)
    (locked : List (Nat × VoteInfo)) (voters : List ((Nat × Addr) × VoteInfo))
    (kept : List (Nat × VoteInfo)) (voters' : List ((Nat × Addr) × VoteInfo))
    (k : Nat × Addr)
    (h : computeLockedBalance polls voter locked voters = .ok (kept, voters'))
    (hk : alLookup voters k = none) : alLookup voters' k = none := by
  induction locked generalizing voters kept with
  | nil =>
    simp only [computeLockedBalance, Res.ok.injEq, Prod.mk.injEq] at h
    rw [← h.2]
    exact hk
  | cons hd tl ih =>
    obtain ⟨pid, vi⟩ := hd
    cases hlk : alLookup polls pid with
    | none =>
      simp only [computeLockedBalance, hlk] at h
      exact absurd h (by simp)
    | some p =>
      simp only [computeLockedBalance, hlk] at h
      by_cases hst : p.status = .inProgress
      · rw [if_pos hst] at h
        cases hc : computeLockedBalance polls voter tl voters with
        | ok pr =>
          obtain ⟨kept0, voters0⟩ := pr
          rw [hc] at h
          simp only [Res.ok.injEq, Prod.mk.injEq] at h
          rw [h.2] at hc
          exact ih voters kept0 hc hk
        | err e => rw [hc] at h; exact absurd h (by simp)
        | panic => rw [hc] at h; exact absurd h (by simp)
      · rw [if_neg hst] at h
        refine ih _ kept h ?_
        by_cases hkk : k = (pid, voter)
        · rw [hkk]
          exact alLookup_remove_self _ _
        · rw [alLookup_remove_ne _ _ _ hkk]
          exact hk

theorem computeLockedBalance_ok (polls : List (Nat × Poll)) (voter : Addr)
    (locked : List (Nat × VoteInfo)) (voters : List ((Nat × Addr) × VoteInfo))
    (h : ∀ e ∈ locked, (alLookup polls e.1).isSome = true) :
    ∃ voters', computeLockedBalance polls voter locked voters =
        .ok (locked.filter (keepEntry polls), voters') ∧
      ∀ e ∈ locked, keepEntry polls e = false →
        alLookup voters' (e.1, voter) = none := by
  induction locked generalizing voters with
  | nil => exact ⟨voters, by simp [computeLockedBalance], by simp⟩
  | cons hd tl ih =>
    obtain ⟨pid, vi⟩ := hd
    have hhd : (alLookup polls pid).isSome = true := h (pid, vi) (by simp)
    obtain ⟨p, hp⟩ := Option.isSome_iff_exists.mp hhd
    have htl : ∀ e ∈ tl, (alLookup polls e.1).isSome = true :=
      fun e he => h e (by simp [he])
    by_cases hst : p.status = .inProgress
    · obtain ⟨voters', hrec, hnone⟩ := ih voters htl
      refine ⟨voters', ?_, ?_⟩
      · simp only [computeLockedBalance, hp, if_pos hst, hrec]
        simp [List.filter, keepEntry, hp, hst]
      · intro e he hke
        rcases List.mem_cons.mp he with he1 | he2
        · rw [he1] at hke
          simp [keepEntry, hp, hst] at hke
        · exact hnone e he2 hke
    · obtain ⟨voters', hrec, hnone⟩ := ih (alRemove voters (pid, voter)) htl
      refine ⟨voters', ?_, ?_⟩
      · simp only [computeLockedBalance, hp, if_neg hst, hrec]
        simp [List.filter, keepEntry, hp, hst]
      · intro e he hke
        rcases List.mem_cons.mp he with he1 | he2
        · rw [he1]
          exact computeLockedBalance_none_mono polls voter tl _ _ voters' _ hrec
            (alLookup_remove_self _ _)
        · exact hnone e he2 hke

/-- Claim C6: withdraw_voting_tokens fails with NothingStaked without a
bank entry; otherwise, with locked_balance the maximum balance over the
sender's locked entries whose poll is still InProgress (dropped entries
lose their poll-voter record) and locked_share = locked_balance *
total_share / total_balance, the withdraw share is share - locked_share
when amount is absent (the transferred amount then being
withdraw_share * total_balance / total_share) and
max(1, amount * total_share / total_balance) when present; the call
fails with InvalidWithdrawAmount iff locked_share + withdraw_share
exceeds the share, and on success the withdraw share is debited from
both the sender's share and state.total_share and a token transfer of
the withdraw amount to the sender is emitted. -/
theorem c6_withdraw :
    (∀ (g : GovState) (env : Env) (sender : Addr) (amount : Option Nat),
      alLookup g.bank sender = none →
      withdrawVotingTokens g env sender amount = .err .NothingStaked) ∧
    (∀ (g : GovState) (env : Env) (sender : Addr) (amount : Option Nat)
        (tm : TokenManager) (kept : List (Nat × VoteInfo)) (tb ls ws wa : Nat),
      alLookup g.bank sender = some tm →
      (∀ e ∈ tm.lockedBalance, (alLookup g.polls e.1).isSome = true) →
      g.st.totalDeposit ≤ env.tokenBalance →
      tb = env.tokenBalance - g.st.totalDeposit →
      tb ≠ 0 →
      g.st.totalShare ≠ 0 →
      tm.share ≤ g.st.totalShare →
      kept = tm.lockedBalance.filter (keepEntry g.polls) →
      ls = maxBalance kept * g.st.totalShare / tb →
      (∀ v, amount = some v →
        ws = max (v * g.st.totalShare / tb) 1 ∧ wa = v) →
      (amount = none →
        ls ≤ tm.share ∧ ws = tm.share - ls ∧ wa = ws * tb / g.st.totalShare) →
      ((withdrawVotingTokens g env sender amount = .err .InvalidWithdrawAmount ↔
          tm.share < ls + ws) ∧
       (ls + ws ≤ tm.share →
         ∃ g' resp, withdrawVotingTokens g env sender amount = .ok (g', resp) ∧
           alLookup g'.bank sender = some ⟨tm.share - ws, kept⟩ ∧
           g'.st.totalShare = g.st.totalShare - ws ∧
           resp.msgs = [⟨g.config.cw20Token, .transfer sender wa, none⟩] ∧
           (∀ e ∈ tm.lockedBalance, keepEntry g.polls e = false →
              alLookup g'.voters (e.1, sender) = none)))) := by
  constructor
  · intro g env sender amount hbank
    simp [withdrawVotingTokens, hbank]
  · intro g env sender amount tm kept tb ls ws wa hbank hpolls hsub htbdef htbne
      hts hshare hkept hls hsome hnone2
    obtain ⟨voters', hrec, hvnone⟩ :=
      computeLockedBalance_ok g.polls sender tm.lockedBalance g.voters hpolls
    rw [← hkept] at hrec
    subst htbdef hls
    cases amount with
    | some v =>
      obtain ⟨hws, hwa⟩ := hsome v rfl
      subst hws
      rw [hwa]
      by_cases hinv : tm.share <
          maxBalance kept * g.st.totalShare / (env.tokenBalance - g.st.totalDeposit) +
            max (v * g.st.totalShare / (env.tokenBalance - g.st.totalDeposit)) 1
      · have hrun : withdrawVotingTokens g env sender (some v) =
            .err .InvalidWithdrawAmount := by
          simp only [withdrawVotingTokens, hbank, if_pos hsub, hrec,
            if_neg htbne, if_pos hinv]
        exact ⟨by simp [hrun, hinv], fun hle => absurd hinv (Nat.not_lt.mpr hle)⟩
      · have hwle : max (v * g.st.totalShare /
            (env.tokenBalance - g.st.totalDeposit)) 1 ≤ g.st.totalShare :=
          le_trans (le_trans (Nat.le_add_left _ _) (Nat.not_lt.mp hinv)) hshare
        have hrun : withdrawVotingTokens g env sender (some v) =
            .ok ({ g with
                    st := ({ g.st with totalShare := (g.st.totalShare -
                      max (v * g.st.totalShare /
                        (env.tokenBalance - g.st.totalDeposit)) 1) })
                    voters := voters'
                    bank := (alInsert g.bank sender
                      { tm with
                          share := (tm.share -
                            max (v * g.st.totalShare /
                              (env.tokenBalance - g.st.totalDeposit)) 1),
                          lockedBalance := kept }) },
                 { msgs := [⟨g.config.cw20Token, .transfer sender v, none⟩]
                   attrs := [("action", "withdraw"), ("recipient", sender),
                             ("amount", toString v)] }) := by
          simp only [withdrawVotingTokens, hbank, if_pos hsub, hrec,
            if_neg htbne, if_neg hinv, if_pos hwle]
        refine ⟨by simp [hrun, hinv], fun hle => ?_⟩
        refine ⟨_, _, hrun, by simp [alLookup_insert_self], rfl, rfl, ?_⟩
        intro e he hke
        exact hvnone e he hke
    | none =>
      obtain ⟨hlle, hws, hwa⟩ := hnone2 rfl
      subst hws
      subst hwa
      have hnp : ¬tm.share < maxBalance kept * g.st.totalShare /
          (env.tokenBalance - g.st.totalDeposit) := Nat.not_lt.mpr hlle
      have hsum : maxBalance kept * g.st.totalShare /
            (env.tokenBalance - g.st.totalDeposit) +
          (tm.share - maxBalance kept * g.st.totalShare /
            (env.tokenBalance - g.st.totalDeposit)) = tm.share :=
        Nat.add_sub_cancel' hlle
      have hinv : ¬tm.share < maxBalance kept * g.st.totalShare /
            (env.tokenBalance - g.st.totalDeposit) +
          (tm.share - maxBalance kept * g.st.totalShare /
            (env.tokenBalance - g.st.totalDeposit)) := by
        rw [hsum]
        exact Nat.lt_irrefl _
      have hwle : (tm.share - maxBalance kept * g.st.totalShare /
          (env.tokenBalance - g.st.totalDeposit)) ≤ g.st.totalShare :=
        le_trans (Nat.sub_le _ _) hshare
      have hrun : withdrawVotingTokens g env sender none =
          .ok ({ g with
                  st := ({ g.st with totalShare := (g.st.totalShare -
                    (tm.share - maxBalance kept * g.st.totalShare /
                      (env.tokenBalance - g.st.totalDeposit))) })
                  voters := voters'
                  bank := (alInsert g.bank sender
                    { tm with
                        share := (tm.share - (tm.share -
                          maxBalance kept * g.st.totalShare /
                            (env.tokenBalance - g.st.totalDeposit))),
                        lockedBalance := kept }) },
               { msgs := [⟨g.config.cw20Token,
                   .transfer sender
                     ((tm.share - maxBalance kept * g.st.totalShare /
                         (env.tokenBalance - g.st.totalDeposit)) *
                       (env.tokenBalance - g.st.totalDeposit) /
                       g.st.totalShare), none⟩]
                 attrs := [("action", "withdraw"), ("recipient", sender),
                           ("amount", toString
                             ((tm.share - maxBalance kept * g.st.totalShare /
                                 (env.tokenBalance - g.st.totalDeposit)) *
                               (env.tokenBalance - g.st.totalDeposit) /
                               g.st.totalShare))] }) := by
        simp only [withdrawVotingTokens, hbank, if_pos hsub, hrec,
          if_neg htbne, if_neg hnp, if_neg hts, if_neg hinv, if_pos hwle]
      refine ⟨by simp [hrun, hinv], fun hle => ?_⟩
      refine ⟨_, _, hrun, by simp [alLookup_insert_self], rfl, rfl, ?_⟩
      intro e he hke
      exact hvnone e he hke

theorem c6_withdraw_witness :
    withdrawVotingTokens { gEx with bank := [] } ⟨0, 100, "gov"⟩ "alice" none =
      .err .NothingStaked ∧
    ∃ g' resp, withdrawVotingTokens gEx ⟨0, 100, "gov"⟩ "alice" (some 50) =
        .ok (g', resp) ∧
      alLookup g'.bank "alice" = some ⟨50, []⟩ ∧
      g'.st.totalShare = 50 ∧
      resp.msgs = [⟨"token", .transfer "alice" 50, none⟩] := by
  constructor
  · exact c6_withdraw.1 { gEx with bank := [] } ⟨0, 100, "gov"⟩ "alice" none rfl
  · obtain ⟨g', resp, hok, hbank, hts, hmsgs, -⟩ :=
      (c6_withdraw.2 gEx ⟨0, 100, "gov"⟩ "alice" (some 50) ⟨100, []⟩ [] 100 0 50 50
        rfl (by simp) (by decide) (by decide) (by decide) (by decide) (by decide)
        rfl (by decide)
        (fun v hv => by
          cases hv
          exact ⟨by decide, rfl⟩)
        (fun h => by cases h)).2 (by decide)
    exact ⟨g', resp, hok, by simpa using hbank, by simpa using hts,
      by simpa using hmsgs⟩

/-- The quorum denominator chosen by end_poll (execute.rs 360-381):
zero when total_share is zero, else the snapshotted staked_amount when
present, else token_balance - total_deposit. -/
def endPollStakedWeight (g : GovState) (env : Env) (aPoll : Poll) : Nat :=
  if g.st.totalShare = 0 then 0
  else
    match aPoll.stakedAmount with
    | some a => a
    | none => env.tokenBalance - g.st.totalDeposit

def endPollAttrs (pollId : Nat) (reason : String) (passed : Bool) :
    List (String × String) :=
  [("action", "end_poll"), ("poll_id", toString pollId),
   ("rejected_reason", reason), ("passed", if passed then "true" else "false")]

theorem endPollDecide_spec (g : GovState) (env : Env) (pollId : Nat)
    (aPoll : Poll) (quorum sw : Nat)
    (hdep : aPoll.depositAmount ≤ g.st.totalDeposit) :
    ∃ g' resp poll',
      endPollDecide g env pollId aPoll quorum sw = .ok (g', resp) ∧
      alLookup g'.polls pollId = some poll' ∧
      ((poll'.status = .rejected ∧
        resp.attrs = endPollAttrs pollId "Quorum not reached" false ∧
        resp.msgs = []) ↔
        (aPoll.yesVotes + aPoll.noVotes = 0 ∨ quorum < g.config.quorum)) ∧
      (¬(aPoll.yesVotes + aPoll.noVotes = 0 ∨ quorum < g.config.quorum) →
        ((poll'.status = .passed ↔
           g.config.threshold <
             fromRatio aPoll.yesVotes (aPoll.yesVotes + aPoll.noVotes)) ∧
         (¬g.config.threshold <
             fromRatio aPoll.yesVotes (aPoll.yesVotes + aPoll.noVotes) →
           poll'.status = .rejected ∧
           resp.attrs = endPollAttrs pollId "Threshold not reached" false) ∧
         resp.msgs = (if aPoll.depositAmount ≠ 0 then
             [⟨g.config.cw20Token, .transfer aPoll.creator aPoll.depositAmount,
               none⟩]
           else []))) ∧
      g'.st.totalDeposit = g.st.totalDeposit - aPoll.depositAmount ∧
      poll'.totalBalanceAtEndPoll = some sw := by
  by_cases hqm : aPoll.yesVotes + aPoll.noVotes = 0 ∨ quorum < g.config.quorum
  · have hpass : ¬(¬(aPoll.yesVotes + aPoll.noVotes = 0 ∨
        quorum < g.config.quorum) ∧ g.config.threshold <
          fromRatio aPoll.yesVotes (aPoll.yesVotes + aPoll.noVotes)) :=
      fun hc => hc.1 hqm
    have hmsg : ¬(¬(aPoll.yesVotes + aPoll.noVotes = 0 ∨
        quorum < g.config.quorum) ∧ aPoll.depositAmount ≠ 0) :=
      fun hc => hc.1 hqm
    simp only [endPollDecide, if_pos hdep]
    refine ⟨_, _, _, rfl, alLookup_insert_self _ _ _, ?_,
      fun hq => absurd hqm hq, rfl, rfl⟩
    constructor
    · intro _
      exact hqm
    · intro _
      refine ⟨?_, ?_, ?_⟩
      · simp only [if_neg hpass]
      · simp only [if_pos hqm, if_neg hpass, endPollAttrs]
        rfl
      · simp only [if_neg hmsg]
  · by_cases hth : g.config.threshold <
        fromRatio aPoll.yesVotes (aPoll.yesVotes + aPoll.noVotes)
    · have hpass : (¬(aPoll.yesVotes + aPoll.noVotes = 0 ∨
          quorum < g.config.quorum) ∧ g.config.threshold <
            fromRatio aPoll.yesVotes (aPoll.yesVotes + aPoll.noVotes)) :=
        ⟨hqm, hth⟩
      simp only [endPollDecide, if_pos hdep]
      refine ⟨_, _, _, rfl, alLookup_insert_self _ _ _, ?_, ?_, rfl, rfl⟩
      · constructor
        · intro hc
          obtain ⟨h1, -, -⟩ := hc
          rw [if_pos hpass] at h1
          simp at h1
        · intro hq2
          exact absurd hq2 hqm
      · intro hq
        refine ⟨?_, fun hc => absurd hth hc, ?_⟩
        · rw [if_pos hpass]
          simp [hth]
        · by_cases hd : aPoll.depositAmount = 0
          · rw [if_neg (fun hc : ¬(aPoll.yesVotes + aPoll.noVotes = 0 ∨
                quorum < g.config.quorum) ∧ aPoll.depositAmount ≠ 0 =>
                hc.2 hd),
              if_neg (fun hc : aPoll.depositAmount ≠ 0 => hc hd)]
          · rw [if_pos ⟨hqm, hd⟩, if_pos hd]
    · have hpass : ¬(¬(aPoll.yesVotes + aPoll.noVotes = 0 ∨
          quorum < g.config.quorum) ∧ g.config.threshold <
            fromRatio aPoll.yesVotes (aPoll.yesVotes + aPoll.noVotes)) :=
        fun hc => hth hc.2
      simp only [endPollDecide, if_pos hdep]
      refine ⟨_, _, _, rfl, alLookup_insert_self _ _ _, ?_, ?_, rfl, rfl⟩
      · constructor
        · intro hc
          obtain ⟨-, h2, -⟩ := hc
          rw [if_neg hqm, if_neg hpass] at h2
          simp [endPollAttrs] at h2
        · intro hq2
          exact absurd hq2 hqm
      · intro hq
        refine ⟨?_, ?_, ?_⟩
        · constructor
          · intro hcc
            rw [if_neg hpass] at hcc
            simp at hcc
          · intro ht2
            exact absurd ht2 hth
        · intro _
          refine ⟨by rw [if_neg hpass], ?_⟩
          rw [if_neg hqm, if_neg hpass]
          simp only [endPollAttrs, if_neg hpass]
          rfl
        · by_cases hd : aPoll.depositAmount = 0
          · rw [if_neg (fun hc : ¬(aPoll.yesVotes + aPoll.noVotes = 0 ∨
                quorum < g.config.quorum) ∧ aPoll.depositAmount ≠ 0 =>
                hc.2 hd),
              if_neg (fun hc : aPoll.depositAmount ≠ 0 => hc hd)]
          · rw [if_pos ⟨hqm, hd⟩, if_pos hd]

/-- Claim C1: for every InProgress poll whose end_height has been
reached, end_poll decides the outcome with tallied = yes + no and the
quorum denominator staked_weight chosen as 0 when total_share = 0, else
poll.staked_amount when present, else token_balance - total_deposit:
the poll becomes Rejected with reason Quorum not reached and no
deposit-refund message iff tallied = 0 or tallied / staked_weight is
below config.quorum; otherwise it becomes Passed iff yes / tallied
exceeds config.threshold (else Rejected with reason Threshold not
reached), and in the non-quorum-miss cases a transfer of deposit_amount
to the creator is emitted iff deposit_amount > 0; in every outcome
total_deposit drops by deposit_amount and total_balance_at_end_poll is
set to staked_weight.  The divisions are at Decimal (18 fractional
digit) precision, and the hypotheses require the chosen denominator to
be nonzero when total_share is nonzero, since end_poll otherwise panics
in Decimal::from_ratio. -/
theorem c1_end_poll (g : GovState) (env : Env) (pollId : Nat) (aPoll : Poll)
    (hp : alLookup g.polls pollId = some aPoll)
    (hs : aPoll.status = .inProgress)
    (hh : aPoll.endHeight ≤ env.height)
    (hdep : aPoll.depositAmount ≤ g.st.totalDeposit)
    (hsw0 : g.st.totalShare ≠ 0 → endPollStakedWeight g env aPoll ≠ 0)
    (hbal : g.st.totalShare ≠ 0 → aPoll.stakedAmount = none →
      g.st.totalDeposit ≤ env.tokenBalance) :
    ∃ g' resp poll',
      endPoll g env pollId = .ok (g', resp) ∧
      alLookup g'.polls pollId = some poll' ∧
      ((poll'.status = .rejected ∧
        resp.attrs = endPollAttrs pollId "Quorum not reached" false ∧
        resp.msgs = []) ↔
        (aPoll.yesVotes + aPoll.noVotes = 0 ∨
         fromRatio (aPoll.yesVotes + aPoll.noVotes)
             (endPollStakedWeight g env aPoll) < g.config.quorum)) ∧
      (¬(aPoll.yesVotes + aPoll.noVotes = 0 ∨
         fromRatio (aPoll.yesVotes + aPoll.noVotes)
             (endPollStakedWeight g env aPoll) < g.config.quorum) →
        ((poll'.status = .passed ↔
           g.config.threshold <
             fromRatio aPoll.yesVotes (aPoll.yesVotes + aPoll.noVotes)) ∧
         (¬g.config.threshold <
             fromRatio aPoll.yesVotes (aPoll.yesVotes + aPoll.noVotes) →
           poll'.status = .rejected ∧
           resp.attrs = endPollAttrs pollId "Threshold not reached" false) ∧
         resp.msgs = (if aPoll.depositAmount ≠ 0 then
             [⟨g.config.cw20Token, .transfer aPoll.creator aPoll.depositAmount,
               none⟩]
           else []))) ∧
      g'.st.totalDeposit = g.st.totalDeposit - aPoll.depositAmount ∧
      poll'.totalBalanceAtEndPoll = some (endPollStakedWeight g env aPoll) := by
  have hred : endPoll g env pollId =
      endPollDecide g env pollId aPoll
        (fromRatio (aPoll.yesVotes + aPoll.noVotes)
          (endPollStakedWeight g env aPoll))
        (endPollStakedWeight g env aPoll) := by
    by_cases hts : g.st.totalShare = 0
    · simp [endPoll, hp, hs, Nat.not_lt.mpr hh, hts, endPollStakedWeight,
        fromRatio]
    · cases hsa : aPoll.stakedAmount with
      | some a =>
        have ha : a ≠ 0 := by
          have := hsw0 hts
          rw [endPollStakedWeight, if_neg hts, hsa] at this
          exact this
        simp [endPoll, hp, hs, Nat.not_lt.mpr hh, hts, hsa, ha,
          endPollStakedWeight]
      | none =>
        have hb := hbal hts hsa
        have hbne : env.tokenBalance - g.st.totalDeposit ≠ 0 := by
          have := hsw0 hts
          rw [endPollStakedWeight, if_neg hts, hsa] at this
          exact this
        simp [endPoll, hp, hs, Nat.not_lt.mpr hh, hts, hsa, hb, hbne,
          endPollStakedWeight]
  rw [hred]
  exact endPollDecide_spec g env pollId aPoll _ _ hdep

def pollVoted : Poll :=
  { pollInProgress with yesVotes := 80 }

def gC1 : GovState :=
  { gEx with polls := [(1, pollVoted)] }

theorem c1_end_poll_witness :
    ∃ g' resp poll',
      endPoll gC1 ⟨10, 100, "gov"⟩ 1 = .ok (g', resp) ∧
      alLookup g'.polls 1 = some poll' ∧
      poll'.status = .passed ∧
      poll'.totalBalanceAtEndPoll = some 100 := by
  obtain ⟨g', resp, poll', hok, hlk, hiff, hrest, htd2, htb2⟩ :=
    c1_end_poll gC1 ⟨10, 100, "gov"⟩ 1 pollVoted rfl rfl (by decide) (by decide)
      (fun _ => by decide) (fun _ _ => by decide)
  refine ⟨g', resp, poll', hok, hlk, ?_, ?_⟩
  · exact ((hrest (by decide)).1).mpr (by decide)
  · simpa using htb2

theorem stakeVotingTokens_polls (g : GovState) (env : Env) (sender : Addr)
    (amount : Nat) (g' : GovState) (resp : Response)
    (h : stakeVotingTokens g env sender amount = .ok (g', resp)) :
    g'.polls = g.polls ∧ g'.st.pollCount = g.st.pollCount := by
  simp only [stakeVotingTokens] at h
  split at h
  · exact absurd h (by simp)
  · split at h
    · simp only [Res.ok.injEq, Prod.mk.injEq] at h
      obtain ⟨hg, -⟩ := h
      subst hg
      exact ⟨rfl, rfl⟩
    · exact absurd h (by simp)

theorem createPoll_polls (g : GovState) (env : Env) (proposer : Addr)
    (dep : Nat) (title desc : String) (link : Option String)
    (ex : Option (List PollExecuteMsg)) (g' : GovState) (resp : Response)
    (h : createPoll g env proposer dep title desc link ex = .ok (g', resp)) :
    ∀ p, p ≤ g.st.pollCount → alLookup g'.polls p = alLookup g.polls p := by
  simp only [createPoll] at h
  split at h
  · exact absurd h (by simp)
  · simp only [Res.ok.injEq, Prod.mk.injEq] at h
    obtain ⟨hg, -⟩ := h
    subst hg
    intro p hp
    exact alLookup_insert_ne _ _ _ _ (by omega)

theorem updateConfig_polls (g : GovState) (caller : Addr) (o c : Option Addr)
    (q t vp tp pd sp : Option Nat) (g' : GovState) (resp : Response)
    (h : updateConfig g caller o c q t vp tp pd sp = .ok (g', resp)) :
    g'.polls = g.polls ∧ g'.st.pollCount = g.st.pollCount := by
  simp only [updateConfig] at h
  split at h
  · exact absurd h (by simp)
  · simp only [Res.ok.injEq, Prod.mk.injEq] at h
    obtain ⟨hg, -⟩ := h
    subst hg
    exact ⟨rfl, rfl⟩

theorem executePoll_polls (g : GovState) (env : Env) (pollId : Nat)
    (g' : GovState) (resp : Response)
    (h : executePoll g env pollId = .ok (g', resp)) :
    g'.polls = g.polls ∧ g'.st.pollCount = g.st.pollCount := by
  simp only [executePoll] at h
  split at h
  · exact absurd h (by simp)
  · split at h
    · exact absurd h (by simp)
    · split at h
      · exact absurd h (by simp)
      · simp only [Res.ok.injEq, Prod.mk.injEq] at h
        obtain ⟨hg, -⟩ := h
        subst hg
        exact ⟨rfl, rfl⟩

theorem withdrawVotingTokens_polls (g : GovState) (env : Env) (sender : Addr)
    (amount : Option Nat) (g' : GovState) (resp : Response)
    (h : withdrawVotingTokens g env sender amount = .ok (g', resp)) :
    g'.polls = g.polls ∧ g'.st.pollCount = g.st.pollCount := by
  simp only [withdrawVotingTokens] at h
  repeat' split at h
  all_goals
    first
    | exact Res.noConfusion h
    | (simp only [Res.ok.injEq, Prod.mk.injEq] at h
       obtain ⟨hg, -⟩ := h
       subst hg
       exact ⟨rfl, rfl⟩)

theorem snapshotPoll_status (g : GovState) (env : Env) (pollId : Nat)
    (g' : GovState) (resp : Response)
    (h : snapshotPoll g env pollId = .ok (g', resp)) :
    g'.st.pollCount = g.st.pollCount ∧
    ∀ p, (alLookup g'.polls p).map Poll.status =
      (alLookup g.polls p).map Poll.status := by
  cases hlk : alLookup g.polls pollId with
  | none =>
    simp only [snapshotPoll, hlk] at h
    exact absurd h (by simp)
  | some aPoll =>
    simp only [snapshotPoll, hlk] at h
    repeat' split at h
    all_goals try exact Res.noConfusion h
    simp only [Res.ok.injEq, Prod.mk.injEq] at h
    obtain ⟨hg, -⟩ := h
    subst hg
    refine ⟨rfl, ?_⟩
    intro p
    by_cases hpp : p = pollId
    · subst hpp
      rw [alLookup_insert_self, hlk]
      rfl
    · rw [alLookup_insert_ne _ _ _ _ hpp]

theorem castVote_status (g : GovState) (env : Env) (caller : Addr)
    (pollId : Nat) (vote : VoteOption) (amount : Nat)
    (g' : GovState) (resp : Response)
    (h : castVote g env caller pollId vote amount = .ok (g', resp)) :
    g'.st.pollCount = g.st.pollCount ∧
    ∀ p, (alLookup g'.polls p).map Poll.status =
      (alLookup g.polls p).map Poll.status := by
  simp only [castVote] at h
  split at h
  · exact Res.noConfusion h
  · cases hlk : alLookup g.polls pollId with
    | none =>
      simp only [hlk] at h
      exact Res.noConfusion h
    | some aPoll =>
      simp only [hlk] at h
      repeat' split at h
      all_goals
        first
        | exact Res.noConfusion h
        | (simp only [Res.ok.injEq, Prod.mk.injEq] at h
           obtain ⟨hg, -⟩ := h
           subst hg
           refine ⟨rfl, ?_⟩
           intro p
           by_cases hpp : p = pollId
           · subst hpp
             rw [alLookup_insert_self, hlk]
             rfl
           · rw [alLookup_insert_ne _ _ _ _ hpp])

theorem endPollDecide_status (g : GovState) (env : Env) (pollId : Nat)
    (aPoll : Poll) (q sw : Nat) (g' : GovState) (resp : Response)
    (h : endPollDecide g env pollId aPoll q sw = .ok (g', resp))
    (hlk : alLookup g.polls pollId = some aPoll)
    (hst : aPoll.status = .inProgress) :
    g'.st.pollCount = g.st.pollCount ∧
    ∀ p poll poll', alLookup g.polls p = some poll →
      alLookup g'.polls p = some poll' →
      poll'.status = poll.status ∨
        (poll.status = .inProgress ∧
          (poll'.status = .passed ∨ poll'.status = .rejected)) := by
  simp only [endPollDecide] at h
  split at h
  · simp only [Res.ok.injEq, Prod.mk.injEq] at h
    obtain ⟨hg, -⟩ := h
    subst hg
    refine ⟨rfl, ?_⟩
    intro p poll poll' hbp hbp'
    by_cases hpp : p = pollId
    · subst hpp
      rw [alLookup_insert_self] at hbp'
      rw [hlk] at hbp
      injection hbp with hbp
      injection hbp' with hbp'
      subst hbp hbp'
      right
      refine ⟨hst, ?_⟩
      by_cases hpass : ¬(aPoll.yesVotes + aPoll.noVotes = 0 ∨
          q < g.config.quorum) ∧ g.config.threshold <
            fromRatio aPoll.yesVotes (aPoll.yesVotes + aPoll.noVotes)
      · left
        simp only [if_pos hpass]
      · right
        simp only [if_neg hpass]
    · rw [alLookup_insert_ne _ _ _ _ hpp] at hbp'
      rw [hbp] at hbp'
      injection hbp' with hbp'
      subst hbp'
      left
      rfl
  · exact Res.noConfusion h

theorem endPoll_status (g : GovState) (env : Env) (pollId : Nat)
    (g' : GovState) (resp : Response)
    (h : endPoll g env pollId = .ok (g', resp)) :
    g'.st.pollCount = g.st.pollCount ∧
    ∀ p poll poll', alLookup g.polls p = some poll →
      alLookup g'.polls p = some poll' →
      poll'.status = poll.status ∨
        (poll.status = .inProgress ∧
          (poll'.status = .passed ∨ poll'.status = .rejected)) := by
  cases hlk : alLookup g.polls pollId with
  | none =>
    simp only [endPoll, hlk] at h
    exact Res.noConfusion h
  | some aPoll =>
    by_cases hst : aPoll.status = .inProgress
    · simp only [endPoll, hlk, if_neg (not_not_intro hst)] at h
      split at h
      · exact Res.noConfusion h
      · split at h
        · exact Res.noConfusion h
        · exact Res.noConfusion h
        · rename_i q sw _heq
          exact endPollDecide_status g env pollId aPoll q sw g' resp h hlk hst
    · simp only [endPoll, hlk, if_pos hst] at h
      exact Res.noConfusion h

theorem executePollMessages_status (g : GovState) (env : Env) (caller : Addr)
    (pollId : Nat) (g' : GovState) (resp : Response)
    (h : executePollMessages g env caller pollId = .ok (g', resp)) :
    g'.st.pollCount = g.st.pollCount ∧
    ∀ p poll poll', alLookup g.polls p = some poll →
      alLookup g'.polls p = some poll' →
      (p ≠ pollId → poll'.status = poll.status) ∧
      (p = pollId → poll'.status = .executed) := by
  simp only [executePollMessages] at h
  split at h
  · exact Res.noConfusion h
  · cases hlk : alLookup g.polls pollId with
    | none =>
      rw [hlk] at h
      exact Res.noConfusion h
    | some aPoll =>
      rw [hlk] at h
      simp only [Res.ok.injEq, Prod.mk.injEq] at h
      obtain ⟨hg, -⟩ := h
      subst hg
      refine ⟨rfl, ?_⟩
      intro p poll poll' hbp hbp'
      constructor
      · intro hpp
        rw [alLookup_insert_ne _ _ _ _ hpp] at hbp'
        rw [hbp] at hbp'
        injection hbp' with hbp'
        subst hbp'
        rfl
      · intro hpp
        subst hpp
        rw [alLookup_insert_self] at hbp'
        injection hbp' with hbp'
        subst hbp'
        rfl

theorem receiveCw20_polls (g : GovState) (env : Env) (caller sender : Addr)
    (amount : Nat) (msg : Bin) (g' : GovState) (resp : Response)
    (h : receiveCw20 g env caller sender amount msg = .ok (g', resp)) :
    ∀ p, p ≤ g.st.pollCount →
      alLookup g'.polls p = alLookup g.polls p := by
  simp only [receiveCw20] at h
  split at h
  · exact Res.noConfusion h
  · split at h
    · intro p hp
      exact (stakeVotingTokens_polls _ _ _ _ _ _ h).1 ▸ rfl
    · exact createPoll_polls _ _ _ _ _ _ _ _ _ _ h
    · exact Res.noConfusion h

theorem executeStep_status (g : GovState) (env : Env) (caller : Addr)
    (m : XMsg) (g' : GovState) (resp : Response) (p : Nat) (poll poll' : Poll)
    (hstep : executeStep g env caller m = .ok (g', resp))
    (hp : p ≤ g.st.pollCount)
    (hb : alLookup g.polls p = some poll)
    (hb' : alLookup g'.polls p = some poll') :
    poll'.status = poll.status ∨
      (poll.status = .inProgress ∧
        (poll'.status = .passed ∨ poll'.status = .rejected)) ∨
      (m = .executePollMsgs p ∧ poll'.status = .executed) := by
  cases m with
  | receive sender amount msg =>
    have hpl := receiveCw20_polls g env caller sender amount msg g' resp hstep p hp
    rw [hb] at hpl
    rw [hpl] at hb'
    injection hb' with hb'
    subst hb'
    exact Or.inl rfl
  | executePollMsgs pollId =>
    have hpl := (executePollMessages_status g env caller pollId g' resp hstep).2
      p poll poll' hb hb'
    by_cases hpp : p = pollId
    · subst hpp
      exact Or.inr (Or.inr ⟨rfl, hpl.2 rfl⟩)
    · exact Or.inl (hpl.1 (fun hc => hpp hc))
  | updateConfig o c q t vp tp pd sp =>
    have hpl := (updateConfig_polls g caller o c q t vp tp pd sp g' resp hstep).1
    rw [hpl, hb] at hb'
    injection hb' with hb'
    subst hb'
    exact Or.inl rfl
  | castVote pollId vote amount =>
    have hpl := (castVote_status g env caller pollId vote amount g' resp hstep).2 p
    rw [hb', hb] at hpl
    simp at hpl
    exact Or.inl hpl
  | withdrawVotingTokens amount =>
    have hpl := (withdrawVotingTokens_polls g env caller amount g' resp hstep).1
    rw [hpl, hb] at hb'
    injection hb' with hb'
    subst hb'
    exact Or.inl rfl
  | endPoll pollId =>
    have hpl := (endPoll_status g env pollId g' resp hstep).2 p poll poll' hb hb'
    rcases hpl with h1 | h2
    · exact Or.inl h1
    · exact Or.inr (Or.inl h2)
  | executePoll pollId =>
    have hpl := (executePoll_polls g env pollId g' resp hstep).1
    rw [hpl, hb] at hb'
    injection hb' with hb'
    subst hb'
    exact Or.inl rfl
  | snapshotPoll pollId =>
    have hpl := (snapshotPoll_status g env pollId g' resp hstep).2 p
    rw [hb', hb] at hpl
    simp at hpl
    exact Or.inl hpl

/-- Claim C2 amended: along any step of the system (external call or
delivery of a self-addressed message), a poll's status either stays
put, moves InProgress to Passed or Rejected (end_poll), or the step is
an ExecutePollMsgs message for that very poll executed with the
contract as sender, which sets the poll to Executed regardless of its
prior status.  Since a Passed poll's execute_data may contain a
message addressed to the contract itself that encodes ExecutePollMsgs
for another poll, the transitions InProgress to Executed and Rejected
to Executed are reachable, contrary to the original claim. -/
theorem c2_status_amended (sys : Sys) (l : Lbl) (sys' : Sys) (p : Nat)
    (poll poll' : Poll)
    (hstep : stepFn sys l = some sys')
    (hp : p ≤ sys.gov.st.pollCount)
    (hb : alLookup sys.gov.polls p = some poll)
    (hb' : alLookup sys'.gov.polls p = some poll') :
    poll'.status = poll.status ∨
      (poll.status = .inProgress ∧
        (poll'.status = .passed ∨ poll'.status = .rejected)) ∨
      (lblMsg sys l = some (.executePollMsgs p) ∧ poll'.status = .executed) := by
  cases hact : l.act with
  | ext caller m =>
    simp only [stepFn, hact] at hstep
    cases houtbox : sys.outbox with
    | nil =>
      simp only [houtbox] at hstep
      by_cases hc : caller ≠ sys.gov.st.contractAddr
      · rw [if_pos hc] at hstep
        cases hexec : executeStep sys.gov ⟨l.height, l.tokenBalance,
            sys.gov.st.contractAddr⟩ caller m with
        | ok pr =>
          obtain ⟨g', resp⟩ := pr
          simp only [hexec] at hstep
          injection hstep with hstep
          have hgov : sys'.gov = g' := by rw [← hstep]
          rw [hgov] at hb'
          have := executeStep_status sys.gov _ caller m g' resp p poll poll'
            hexec hp hb hb'
          rcases this with h1 | h2 | h3
          · exact Or.inl h1
          · exact Or.inr (Or.inl h2)
          · exact Or.inr (Or.inr ⟨by simp [lblMsg, hact, h3.1], h3.2⟩)
        | err e =>
          simp only [hexec] at hstep
          exact Option.noConfusion hstep
        | panic =>
          simp only [hexec] at hstep
          exact Option.noConfusion hstep
      · rw [if_neg hc] at hstep
        exact Option.noConfusion hstep
    | cons w rest =>
      simp only [houtbox] at hstep
      exact Option.noConfusion hstep
  | deliver =>
    simp only [stepFn, hact] at hstep
    cases houtbox : sys.outbox with
    | nil =>
      simp only [houtbox] at hstep
      exact Option.noConfusion hstep
    | cons w rest =>
      simp only [houtbox] at hstep
      by_cases hw : w.contract = sys.gov.st.contractAddr
      · rw [if_pos hw] at hstep
        cases hdec : decodeX w.msg with
        | some m =>
          simp only [hdec] at hstep
          cases hexec : executeStep sys.gov ⟨l.height, l.tokenBalance,
              sys.gov.st.contractAddr⟩ sys.gov.st.contractAddr m with
          | ok pr =>
            obtain ⟨g', resp⟩ := pr
            simp only [hexec] at hstep
            injection hstep with hstep
            have hgov : sys'.gov = g' := by rw [← hstep]
            rw [hgov] at hb'
            have := executeStep_status sys.gov _ _ m g' resp p poll poll'
              hexec hp hb hb'
            rcases this with h1 | h2 | h3
            · exact Or.inl h1
            · exact Or.inr (Or.inl h2)
            · refine Or.inr (Or.inr ⟨?_, h3.2⟩)
              simp [lblMsg, hact, houtbox, hw, hdec, h3.1]
          | err e =>
            simp only [hexec] at hstep
            injection hstep with hstep
            have hgov : sys'.gov = sys.gov := by rw [← hstep]
            rw [hgov, hb] at hb'
            injection hb' with hb'
            subst hb'
            exact Or.inl rfl
          | panic =>
            simp only [hexec] at hstep
            injection hstep with hstep
            have hgov : sys'.gov = sys.gov := by rw [← hstep]
            rw [hgov, hb] at hb'
            injection hb' with hb'
            subst hb'
            exact Or.inl rfl
        | none =>
          simp only [hdec] at hstep
          injection hstep with hstep
          have hgov : sys'.gov = sys.gov := by rw [← hstep]
          rw [hgov, hb] at hb'
          injection hb' with hb'
          subst hb'
          exact Or.inl rfl
      · rw [if_neg hw] at hstep
        injection hstep with hstep
        have hgov : sys'.gov = sys.gov := by rw [← hstep]
        rw [hgov, hb] at hb'
        injection hb' with hb'
        subst hb'
        exact Or.inl rfl

theorem c2_status_amended_witness :
    pollInProgress.status = pollInProgress.status ∨
      (pollInProgress.status = .inProgress ∧
        (pollInProgress.status = .passed ∨ pollInProgress.status = .rejected)) ∨
      (lblMsg ⟨gEx, []⟩
          ⟨0, 200, .ext "token" (.receive "bob" 100 (.encHook .stakeVotingTokens))⟩ =
          some (.executePollMsgs 1) ∧
        pollInProgress.status = .executed) :=
  c2_status_amended ⟨gEx, []⟩
    ⟨0, 200, .ext "token" (.receive "bob" 100 (.encHook .stakeVotingTokens))⟩
    ⟨{ gEx with
        st := { gEx.st with totalShare := 200 }
        bank := [("alice", ⟨100, []⟩), ("bob", ⟨100, []⟩)] }, []⟩
    1 pollInProgress pollInProgress rfl (by decide) rfl rfl

def msgC2 : InstantiateMsg := ⟨"token", 0, 0, 0, 0, 0, 0⟩

def c2init : Sys :=
  ⟨{ config :=
      { owner := "alice", cw20Token := "token", quorum := 0, threshold := 0,
        votingPeriod := 0, timelockPeriod := 0, proposalDeposit := 0,
        snapshotPeriod := 0 }
     st := { contractAddr := "gov", pollCount := 0, totalShare := 0,
             totalDeposit := 0 }
     polls := [], voters := [], bank := [], tmpPollId := none }, []⟩

/-- A reachable exploit history: stake, create poll 1 whose
execute_data is a self-addressed ExecutePollMsgs for poll 2, create
poll 2, vote yes on poll 1, end poll 1 (Passed), execute poll 1, and
deliver the reply-on-error submessage (poll 1 becomes Executed and the
execute_data message to the contract itself is emitted). -/
def c2exploit : List Lbl :=
  [⟨0, 100, .ext "token" (.receive "alice" 100 (.encHook .stakeVotingTokens))⟩,
   ⟨0, 100, .ext "token" (.receive "alice" 0 (.encHook (.createPoll "t" "d" none
      (some [.mk 0 "gov" (.encX (.executePollMsgs 2))]))))⟩,
   ⟨0, 100, .ext "token" (.receive "alice" 0
      (.encHook (.createPoll "t" "d" none none)))⟩,
   ⟨0, 100, .ext "alice" (.castVote 1 .yes 1)⟩,
   ⟨0, 100, .ext "bob" (.endPoll 1)⟩,
   ⟨0, 100, .ext "bob" (.executePoll 1)⟩,
   ⟨0, 100, .deliver⟩]

def c2sys7 : Option Sys := runLbls c2init c2exploit

def c2lbl8 : Lbl := ⟨0, 100, .deliver⟩

def c2sys8 : Option Sys := c2sys7.bind (fun s => stepFn s c2lbl8)

/-- Claim C2 counterexample: starting from the instantiate state, the
exploit history is a valid run; after it poll 2 is still InProgress and
the pending self-addressed message is ExecutePollMsgs for poll 2;
delivering it is a single step that moves poll 2 from InProgress
directly to Executed, a transition the claim rules out. -/
theorem c2_status_cex :
    instantiateGov ⟨0, 0, "gov"⟩ "alice" msgC2 = .ok (c2init.gov, Response.empty) ∧
    c2sys7.map (fun s => pollStatusAt s.gov 2) = some (some .inProgress) ∧
    c2sys7.map (fun s => lblMsg s c2lbl8) = some (some (.executePollMsgs 2)) ∧
    c2sys8.map (fun s => pollStatusAt s.gov 2) = some (some .executed) := by
  refine ⟨rfl, ?_, ?_, ?_⟩ <;> rfl
